import Mathlib

/-!
Shallow embedding of the Canopy whiteboard engine (src/App.tsx, src/types.ts)
and verification of its specified properties.

Coordinates are modelled over ℚ (exact arithmetic standing in for JS floats).
The Ink Layer raster is modelled abstractly as the list of marks drawn onto
it since it was last cleared; a history snapshot (`canvas.toDataURL()`) is a
copy of that content, and restoring a snapshot replaces the content.
-/

namespace Canopy

/-- A 2-D point (viewport or scene coordinates). -/
structure Point where
  x : ℚ
  y : ℚ
deriving DecidableEq, Repr

/-- The pan/zoom transform state, from `panZoomRef` in src/App.tsx
(`useRef({ scale: 1, panX: 0, panY: 0, ... })`, line 663). -/
structure PanZoom where
  scale : ℚ
  panX : ℚ
  panY : ℚ
deriving DecidableEq, Repr

/-- Viewport→scene conversion as performed by `startDrawing` / `draw`
(src/App.tsx lines 1304-1305, 1333-1334):
`x = (clientX - rect.left - panX) / scale` (the `rect.left` offset is the
container origin; `Point` here is already container-relative). -/
def toScene (pz : PanZoom) (p : Point) : Point :=
  ⟨(p.x - pz.panX) / pz.scale, (p.y - pz.panY) / pz.scale⟩

/-- Scene→viewport conversion as performed by `stopDrawing` when placing the
AI menu (src/App.tsx lines 1422-1423): `screen = scene * scale + pan`. -/
def toViewport (pz : PanZoom) (p : Point) : Point :=
  ⟨p.x * pz.scale + pz.panX, p.y * pz.scale + pz.panY⟩

/-- The ctrl/meta wheel-zoom branch of the `onWheel` handler
(src/App.tsx lines 1612-1618):
`newScale = Math.min(Math.max(0.1, scale - deltaY * 0.001), 5)`;
`panX`/`panY` are not touched by this branch. -/
def onWheelZoom (pz : PanZoom) (deltaY : ℚ) : PanZoom :=
  { pz with scale := min (max (1/10) (pz.scale - deltaY * (1/1000))) 5 }

/-- C9: for every transform state with `scale > 0` and every viewport point
`p`, converting `p` to scene coordinates and back to viewport coordinates
yields `p` again (round-trip identity). -/
theorem C9_roundtrip (pz : PanZoom) (p : Point) (hs : 0 < pz.scale) :
    toViewport pz (toScene pz p) = p := by
  have hne : pz.scale ≠ 0 := ne_of_gt hs
  obtain ⟨px, py⟩ := p
  simp [toScene, toViewport, div_mul_cancel₀, hne]

/-- Witness for C9 at the concrete transform `⟨2, 3, 5⟩` and point `(7, 11)`. -/
theorem C9_roundtrip_witness :
    (0 : ℚ) < (2 : ℚ) ∧
      toViewport ⟨2, 3, 5⟩ (toScene ⟨2, 3, 5⟩ ⟨7, 11⟩) = ⟨7, 11⟩ :=
  ⟨by norm_num, C9_roundtrip ⟨2, 3, 5⟩ ⟨7, 11⟩ (by norm_num)⟩

/-- C1 counterexample: the wheel zoom does NOT keep the scene point under the
anchor viewport pixel fixed. From state `scale = 1, pan = (0,0)`, a wheel
event with `deltaY = -1000` yields scale 2 with pan unchanged; the scene
point that was under viewport pixel `(100, 100)` is now under `(200, 200)`.
(The scale update is also additive, `scale - deltaY*0.001`, not a
multiplication by a factor.) -/
theorem C1_counterexample :
    toViewport (onWheelZoom ⟨1, 0, 0⟩ (-1000)) (toScene ⟨1, 0, 0⟩ ⟨100, 100⟩)
      ≠ ⟨100, 100⟩ := by
  simp only [onWheelZoom, toScene, toViewport, Point.mk.injEq, not_and]
  norm_num [min_def, max_def]

/-- C1 amended: each ctrl/meta wheel zoom sets
`scale' = clamp(scale - deltaY*0.001, 0.1, 5)` (additively, with the clamp
to `[0.1, 5]` as claimed) and leaves `panX`/`panY` unchanged; consequently
the viewport pixel that stays fixed under the transform is `(panX, panY)`
(where the scene origin sits), not the wheel anchor. -/
theorem C1_amended (pz : PanZoom) (deltaY : ℚ) :
    (onWheelZoom pz deltaY).panX = pz.panX ∧
    (onWheelZoom pz deltaY).panY = pz.panY ∧
    (onWheelZoom pz deltaY).scale = min (max (1/10) (pz.scale - deltaY * (1/1000))) 5 ∧
    (1/10 : ℚ) ≤ (onWheelZoom pz deltaY).scale ∧ (onWheelZoom pz deltaY).scale ≤ 5 ∧
    toViewport (onWheelZoom pz deltaY) (toScene pz ⟨pz.panX, pz.panY⟩)
      = ⟨pz.panX, pz.panY⟩ := by
  refine ⟨rfl, rfl, rfl, ?_, ?_, ?_⟩
  · exact le_min (le_max_left _ _) (by norm_num)
  · exact min_le_right _ _
  · simp [toScene, toViewport, onWheelZoom]

/-!
## Ink Layer history (drawing history / undo / redo)

The raster content of the Ink Layer canvas is modelled as the list of marks
(`ℕ` identifiers) drawn since the last clear; `[]` is the blank canvas. A
history entry (a `toDataURL()` string in the source) is a full copy of that
content.
-/

/-- The drawing-history state carried on the active chat
(src/types.ts: `drawingHistory?: string[]`, `drawingHistoryIndex?: number`)
together with the Ink Layer canvas content. A new chat starts with
`drawingHistory: [], drawingHistoryIndex: -1` (src/App.tsx lines 1040-1041)
and a blank canvas. -/
structure ChatDrawState where
  canvas : List ℕ
  drawingHistory : List (List ℕ)
  drawingHistoryIndex : Int
deriving DecidableEq, Repr

/-- Initial drawing state of a new chat (src/App.tsx `handleNewChat`,
lines 1032-1041). -/
def newChatDrawState : ChatDrawState := ⟨[], [], -1⟩

/-- A pointer gesture paints a stroke onto the Ink Layer canvas
(`ctx.lineTo/stroke` in `draw`, src/App.tsx lines 1355-1358); the mark `k`
abstracts the pixels the stroke adds. -/
def drawStroke (s : ChatDrawState) (k : ℕ) : ChatDrawState :=
  { s with canvas := s.canvas ++ [k] }

/-- The history commit at the end of `stopDrawing` (src/App.tsx lines
1440-1453): copy the history, `shift()` the oldest entry when
`length > 20`, `push` a full snapshot of the canvas, and set
`drawingHistoryIndex` to the new last index. -/
def stopDrawingCommit (s : ChatDrawState) : ChatDrawState :=
  let h0 := s.drawingHistory
  let h1 := if h0.length > 20 then h0.tail else h0
  let h2 := h1 ++ [s.canvas]
  { s with drawingHistory := h2, drawingHistoryIndex := (h2.length : Int) - 1 }

/-- One complete stroke gesture: paint, then commit one snapshot on release. -/
def strokeAndCommit (s : ChatDrawState) (k : ℕ) : ChatDrawState :=
  stopDrawingCommit (drawStroke s k)

/-- Drawing a sequence of strokes, one commit per stroke. -/
def doStrokes (s : ChatDrawState) (ks : List ℕ) : ChatDrawState :=
  ks.foldl strokeAndCommit s

/-- The `handleUndo` handler (src/App.tsx lines 1456-1467): bail out when
`drawingHistoryIndex <= 0` (or the history fields are absent); otherwise
load `history[index-1]` into an `Image` whose `onload` clears the canvas,
redraws the snapshot, and stores the decremented index. If the entry does
not exist the image never loads and nothing changes. -/
def handleUndo (s : ChatDrawState) : ChatDrawState :=
  if s.drawingHistoryIndex ≤ 0 then s
  else
    match s.drawingHistory[(s.drawingHistoryIndex - 1).toNat]? with
    | some snap =>
        { s with canvas := snap, drawingHistoryIndex := s.drawingHistoryIndex - 1 }
    | none => s

/-- The redo control wired into the toolbar (src/App.tsx line 1662:
`onRedo={() => {}}`, with `canRedo={false}` on line 1664): a no-op. -/
def onRedo (s : ChatDrawState) : ChatDrawState := s

/-- C2 counterexample: from the state with history `[[1], [1,2]]`, index 1
and canvas `[1,2]`, `undo` moves to snapshot `[1]` but `redo` (a no-op)
does not restore the pre-undo bitmap `[1,2]`, and it does not increment
`historyIndex` even though `historyIndex = 0 < history.length - 1 = 1`. -/
theorem C2_counterexample :
    (onRedo (handleUndo ⟨[1, 2], [[1], [1, 2]], 1⟩)).canvas ≠ [1, 2] ∧
    (handleUndo (⟨[1, 2], [[1], [1, 2]], 1⟩ : ChatDrawState)).drawingHistoryIndex = 0 ∧
    (handleUndo (⟨[1, 2], [[1], [1, 2]], 1⟩ : ChatDrawState)).drawingHistory.length = 2 ∧
    (onRedo (handleUndo ⟨[1, 2], [[1], [1, 2]], 1⟩)).drawingHistoryIndex = 0 := by
  refine ⟨?_, rfl, rfl, rfl⟩
  decide

/-- C2 amended: the redo control is a no-op (`() => {}`), so `undo()`
followed by `redo()` leaves the Ink Layer at the undone snapshot
`history[historyIndex - 1]` with the index decremented; `historyIndex` is
never incremented. -/
theorem C2_amended (s : ChatDrawState) (snap : List ℕ)
    (h1 : 1 ≤ s.drawingHistoryIndex)
    (h2 : s.drawingHistory[(s.drawingHistoryIndex - 1).toNat]? = some snap) :
    onRedo (handleUndo s) = handleUndo s ∧
    (handleUndo s).canvas = snap ∧
    (handleUndo s).drawingHistoryIndex = s.drawingHistoryIndex - 1 := by
  have hnot : ¬ s.drawingHistoryIndex ≤ 0 := by omega
  have htn : (s.drawingHistoryIndex - 1).toNat = s.drawingHistoryIndex.toNat - 1 := by
    omega
  rw [htn] at h2
  refine ⟨rfl, ?_, ?_⟩ <;> simp [handleUndo, hnot, h2]

/-- Witness for C2 amended at the concrete state of the counterexample. -/
theorem C2_amended_witness :
    onRedo (handleUndo ⟨[1, 2], [[1], [1, 2]], 1⟩)
        = handleUndo ⟨[1, 2], [[1], [1, 2]], 1⟩ ∧
    (handleUndo (⟨[1, 2], [[1], [1, 2]], 1⟩ : ChatDrawState)).canvas = [1] ∧
    (handleUndo (⟨[1, 2], [[1], [1, 2]], 1⟩ : ChatDrawState)).drawingHistoryIndex
        = 1 - 1 :=
  C2_amended ⟨[1, 2], [[1], [1, 2]], 1⟩ [1] (by decide) (by decide)

/-- C3 counterexample: from a new (empty) chat, drawing one stroke and
undoing once does NOT return the Ink Layer to empty: the first committed
snapshot is the canvas already containing the stroke, and `handleUndo`
refuses to act when `historyIndex = 0`. -/
theorem C3_counterexample :
    (handleUndo (doStrokes newChatDrawState [7])).canvas = [7] ∧
    ([7] : List ℕ) ≠ [] := by
  decide

/-- Invariant used for C3: the canvas is non-empty and so is every history
snapshot. It holds after the first committed stroke and is preserved by
further strokes and by undo, so undo can never reach the blank canvas. -/
def inkInv (s : ChatDrawState) : Prop :=
  s.canvas ≠ [] ∧ ∀ snap ∈ s.drawingHistory, snap ≠ []

theorem strokeAndCommit_inv (s : ChatDrawState) (k : ℕ)
    (h : ∀ snap ∈ s.drawingHistory, snap ≠ []) :
    inkInv (strokeAndCommit s k) := by
  refine ⟨by simp [strokeAndCommit, stopDrawingCommit, drawStroke], ?_⟩
  intro snap hsnap
  simp only [strokeAndCommit, stopDrawingCommit, drawStroke, List.mem_append,
    List.mem_singleton] at hsnap
  rcases hsnap with hmem | rfl
  · split at hmem
    · exact h snap (List.mem_of_mem_tail hmem)
    · exact h snap hmem
  · simp

theorem doStrokes_inv (s : ChatDrawState) (ks : List ℕ) (h : inkInv s) :
    inkInv (doStrokes s ks) := by
  induction ks generalizing s with
  | nil => exact h
  | cons k ks ih => exact ih (strokeAndCommit s k) (strokeAndCommit_inv s k h.2)

theorem handleUndo_inv (s : ChatDrawState) (h : inkInv s) :
    inkInv (handleUndo s) := by
  unfold handleUndo
  split
  · exact h
  · split
    · next snap heq =>
        have hget : s.drawingHistory.get? (s.drawingHistoryIndex - 1).toNat
            = some snap := by
          rw [List.get?_eq_getElem?]
          exact heq
        exact ⟨h.2 snap (List.get?_mem hget), h.2⟩
    · exact h

theorem undoIter_inv (s : ChatDrawState) (n : ℕ) (h : inkInv s) :
    inkInv (handleUndo^[n] s) := by
  induction n generalizing s with
  | zero => exact h
  | succ n ih =>
      rw [Function.iterate_succ_apply]
      exact ih (handleUndo s) (handleUndo_inv s h)

/-- C3 amended: drawing `N ≥ 1` strokes from a new (empty) chat and then
undoing any number of times never returns the Ink Layer to its initial
empty state: `handleUndo` requires `historyIndex > 0` and no blank snapshot
is ever committed, so the canvas stays non-empty (it bottoms out at the
oldest retained snapshot, which already contains the first stroke). -/
theorem C3_amended (ks : List ℕ) (n : ℕ) (h : ks ≠ []) :
    (handleUndo^[n] (doStrokes newChatDrawState ks)).canvas ≠ [] := by
  obtain ⟨k, ks2, rfl⟩ := List.exists_cons_of_ne_nil h
  have h1 : inkInv (strokeAndCommit newChatDrawState k) :=
    strokeAndCommit_inv newChatDrawState k
      (by intro snap hs; simp [newChatDrawState] at hs)
  have h2 : inkInv (doStrokes (strokeAndCommit newChatDrawState k) ks2) :=
    doStrokes_inv _ ks2 h1
  have h3 : doStrokes newChatDrawState (k :: ks2)
      = doStrokes (strokeAndCommit newChatDrawState k) ks2 := rfl
  rw [h3]
  exact (undoIter_inv _ n h2).1

/-- Witness for C3 amended: one stroke, one undo. -/
theorem C3_amended_witness :
    ([7] : List ℕ) ≠ [] ∧
      (handleUndo^[1] (doStrokes newChatDrawState [7])).canvas ≠ [] :=
  ⟨by decide, C3_amended [7] 1 (by decide)⟩

/-!
## Card model (src/types.ts `VisualCard`) and the Placement Planner
-/

/-- Card load status (src/types.ts `VisualCardStatus`). -/
inductive VisualCardStatus where
  | loading
  | loaded
  | error
deriving DecidableEq, Repr

/-- Scene-space card anchor (src/types.ts `position: { top, left }`). -/
structure CardPosition where
  top : ℚ
  left : ℚ
deriving DecidableEq, Repr

/-- A structured card entity (src/types.ts `VisualCard`); the TS field
`type` is rendered `cardType` because `type` is reserved in Lean. Optional
TS fields are `Option`s. -/
structure VisualCard where
  id : String
  cardType : String
  keyword : String
  status : VisualCardStatus
  imageUrl : Option String
  text : Option String
  position : CardPosition
  rotation : ℚ
  width : Option ℚ
  height : Option ℚ
  backgroundColor : Option String
  visible : Option Bool
deriving DecidableEq, Repr

/-- The Placement Planner, `findNextLogicalCardPosition` (src/App.tsx lines
1196-1204): a count-based 3-column grid,
`{ top: 100 + row*250, left: 100 + col*spacing }` with `spacing = 320`,
`row = floor(count/3)`, `col = count % 3`. It reads nothing but the length
of the card list. -/
def findNextLogicalCardPosition (cards : List VisualCard) : CardPosition :=
  let spacing : ℚ := 320
  let cols : ℕ := 3
  let count := cards.length
  let row : ℕ := count / cols
  let col : ℕ := count % cols
  ⟨100 + (row : ℚ) * 250, 100 + (col : ℚ) * spacing⟩

/-- An axis-aligned rectangle, used only to state the spec's overlap claim. -/
structure SpecRect where
  left : ℚ
  top : ℚ
  right : ℚ
  bottom : ℚ
deriving DecidableEq, Repr

/-- Follows the spec's words for C4: a card's padded bounding box is
`{left, top, left+width, top+height}` grown by `pad`, "using a default size
when `size` is absent" (default 300×200 here; the counterexample below has
coincident top-left corners, so its verdict is the same for every positive
default size and non-negative padding). -/
def specPaddedBox (c : VisualCard) (pad : ℚ) : SpecRect :=
  ⟨c.position.left - pad, c.position.top - pad,
   c.position.left + c.width.getD 300 + pad,
   c.position.top + c.height.getD 200 + pad⟩

/-- Follows the spec's words for C4: the padded default-size footprint of
the card about to be placed at `p`. -/
def specNewCardBox (p : CardPosition) (pad : ℚ) : SpecRect :=
  ⟨p.left - pad, p.top - pad, p.left + 300 + pad, p.top + 200 + pad⟩

/-- Follows the spec's words for C4: "two rects overlap iff they overlap on
both axes" (simple AABB test). -/
def specRectsOverlap (a b : SpecRect) : Bool :=
  decide (a.left < b.right) && decide (b.left < a.right) &&
    decide (a.top < b.bottom) && decide (b.top < a.bottom)

/-- A concrete visible card sitting at scene position `(top 100, left 420)`:
exactly the cell the planner assigns to the next card of a 1-card list. -/
def c4Card : VisualCard :=
  { id := "c4", cardType := "image", keyword := "k", status := .loaded,
    imageUrl := none, text := none, position := ⟨100, 420⟩, rotation := 0,
    width := none, height := none, backgroundColor := none,
    visible := some true }

/-- C4 counterexample: with the single visible card `c4Card` at
`(top 100, left 420)`, the planner returns exactly `(top 100, left 420)`
(count 1 ⇒ row 0, col 1), so the new card's padded bounding box overlaps
the existing card's padded bounding box — the planner never tests overlap.
The bounded-grid-exhausted escape clause does not apply: only one card
exists. -/
theorem C4_counterexample :
    findNextLogicalCardPosition [c4Card] = ⟨100, 420⟩ ∧
    c4Card.visible = some true ∧
    specRectsOverlap (specNewCardBox (findNextLogicalCardPosition [c4Card]) 10)
      (specPaddedBox c4Card 10) = true := by
  refine ⟨?_, rfl, ?_⟩ <;>
    norm_num [findNextLogicalCardPosition, specRectsOverlap, specNewCardBox,
      specPaddedBox, c4Card]

/-- C4 amended: the planner performs no overlap avoidance at all — its
output depends only on the number of existing cards (a fixed 3-column,
320×250 grid anchored at scene point (100, 100)), never on their positions
or sizes, so the returned cell can overlap existing cards. -/
theorem C4_amended (cards1 cards2 : List VisualCard)
    (h : cards1.length = cards2.length) :
    findNextLogicalCardPosition cards1 = findNextLogicalCardPosition cards2 := by
  simp [findNextLogicalCardPosition, h]

/-- A second concrete card, placed far from `c4Card`, for the C4 witness. -/
def c4CardFar : VisualCard :=
  { id := "far", cardType := "image", keyword := "k2", status := .loaded,
    imageUrl := none, text := none, position := ⟨-5000, -5000⟩, rotation := 0,
    width := some 10, height := some 10, backgroundColor := none,
    visible := some false }

/-- Witness for C4 amended: two one-card lists with entirely different card
geometry receive the same planner output. -/
theorem C4_amended_witness :
    ([c4Card].length = [c4CardFar].length) ∧
      findNextLogicalCardPosition [c4Card]
        = findNextLogicalCardPosition [c4CardFar] :=
  ⟨rfl, C4_amended [c4Card] [c4CardFar] rfl⟩

/-!
## Lasso capture (`stopDrawing`, ai-lasso branch, src/App.tsx lines 1400-1429)
-/

/-- The axis-aligned bounding box a lasso path is reduced to
(`{minX, maxX, minY, maxY}`, src/App.tsx lines 1403-1409). -/
structure LassoBounds where
  minX : ℚ
  maxX : ℚ
  minY : ℚ
  maxY : ℚ
deriving DecidableEq, Repr

/-- Bounding box of a path: `Math.min(...path.map(p => p.x))` etc.
(src/App.tsx lines 1403-1406); only ever used on paths of length > 2. -/
def lassoBoundsOf (path : List Point) : LassoBounds :=
  match path with
  | [] => ⟨0, 0, 0, 0⟩
  | p :: ps =>
      ⟨ps.foldl (fun m q => min m q.x) p.x,
       ps.foldl (fun m q => max m q.x) p.x,
       ps.foldl (fun m q => min m q.y) p.y,
       ps.foldl (fun m q => max m q.y) p.y⟩

/-- The card-membership test of the lasso (src/App.tsx lines 1412-1415):
`cX = left + (width || 300)/2`, `cY = top + 100` ("approx center"), inside
iff `minX ≤ cX ≤ maxX ∧ minY ≤ cY ≤ maxY`. -/
def lassoHitsCard (b : LassoBounds) (c : VisualCard) : Bool :=
  let cX := c.position.left + c.width.getD 300 / 2
  let cY := c.position.top + 100
  decide (b.minX ≤ cX) && decide (cX ≤ b.maxX) &&
    decide (b.minY ≤ cY) && decide (cY ≤ b.maxY)

/-- `capturedIds` (src/App.tsx lines 1412-1416): ids of the cards the lasso
box captures. -/
def capturedCardIds (cards : List VisualCard) (b : LassoBounds) : List String :=
  (cards.filter (fun c => lassoHitsCard b c)).map (fun c => c.id)

/-- The selection update on lasso release (src/App.tsx lines 1400-1426): if
the path has more than 2 points, the selection becomes the captured ids;
otherwise the `if` body is skipped and the selection is left as it was. -/
def stopDrawingLasso (cards : List VisualCard) (path : List Point)
    (selected : List String) : List String :=
  if path.length > 2 then capturedCardIds cards (lassoBoundsOf path) else selected

/-- Follows the spec's words for C5: a card is selected iff its center
`(left + width/2, top + height/2)` — width and height with defaults when
absent — lies in the box. (The default height constant is irrelevant to the
counterexample below: its card carries explicit width and height.) -/
def specLassoHitsCard (b : LassoBounds) (c : VisualCard) : Bool :=
  let cX := c.position.left + c.width.getD 300 / 2
  let cY := c.position.top + c.height.getD 200 / 2
  decide (b.minX ≤ cX) && decide (cX ≤ b.maxX) &&
    decide (b.minY ≤ cY) && decide (cY ≤ b.maxY)

/-- A tall card: top 0, height 400, so its true center is at y = 200, while
the code's membership test uses y = top + 100 = 100. -/
def c5Card : VisualCard :=
  { id := "tall", cardType := "image", keyword := "k", status := .loaded,
    imageUrl := none, text := none, position := ⟨0, 0⟩, rotation := 0,
    width := some 100, height := some 400, backgroundColor := none,
    visible := some true }

/-- A 3-point lasso path whose bounding box is `[0,100] × [150,300]`. -/
def c5Path : List Point := [⟨0, 150⟩, ⟨100, 150⟩, ⟨50, 300⟩]

/-- C5 counterexample: the lasso box `[0,100] × [150,300]` contains
`c5Card`'s center `(50, 200)` — so by the claim the card must be selected —
yet the code's release handler selects nothing, because it tests
`top + 100 = 100 ∉ [150, 300]` instead of `top + height/2`. -/
theorem C5_counterexample :
    lassoBoundsOf c5Path = ⟨0, 100, 150, 300⟩ ∧
    specLassoHitsCard (lassoBoundsOf c5Path) c5Card = true ∧
    stopDrawingLasso [c5Card] c5Path [] = [] := by
  refine ⟨?_, ?_, ?_⟩ <;>
    norm_num [stopDrawingLasso, capturedCardIds, lassoBoundsOf, c5Path,
      specLassoHitsCard, lassoHitsCard, c5Card, List.filter, min_def, max_def]

/-- C5 amended: on a lasso release whose path has more than two points, the
selection contains exactly the ids of the cards whose point
`(left + (width ∨ 300)/2, top + 100)` lies within the path's bounding box —
the X test uses the half-width with default 300, but the Y test uses the
fixed offset 100, not half the card's height. -/
theorem C5_amended (cards : List VisualCard) (path : List Point)
    (selected : List String) (id0 : String) (h : path.length > 2) :
    id0 ∈ stopDrawingLasso cards path selected ↔
      ∃ c ∈ cards, lassoHitsCard (lassoBoundsOf path) c = true ∧ c.id = id0 := by
  simp only [stopDrawingLasso, h, if_true, capturedCardIds, List.mem_map,
    List.mem_filter]
  tauto

/-- A short card whose code-test point `(50, 100)` lies in the box
`[0,100] × [50,150]`, used to exercise the positive side of C5 amended. -/
def c5CardShort : VisualCard :=
  { id := "short", cardType := "image", keyword := "k", status := .loaded,
    imageUrl := none, text := none, position := ⟨0, 0⟩, rotation := 0,
    width := some 100, height := some 10, backgroundColor := none,
    visible := some true }

/-- Witness for C5 amended on a concrete 3-point path and one card. -/
theorem C5_amended_witness :
    ([(⟨0, 50⟩ : Point), ⟨100, 50⟩, ⟨50, 150⟩].length > 2) ∧
      ("short" ∈ stopDrawingLasso [c5CardShort] [⟨0, 50⟩, ⟨100, 50⟩, ⟨50, 150⟩] [] ↔
        ∃ c ∈ [c5CardShort],
          lassoHitsCard (lassoBoundsOf [⟨0, 50⟩, ⟨100, 50⟩, ⟨50, 150⟩]) c = true ∧
            c.id = "short") :=
  ⟨by decide,
    C5_amended [c5CardShort] [⟨0, 50⟩, ⟨100, 50⟩, ⟨50, 150⟩] [] "short" (by decide)⟩

/-!
## Card deletion vs. pending AI regeneration (C8) and the wipe control (C10)
-/

/-- The card `onDelete` handler (src/App.tsx line 1648):
`visualCards.filter(vc => vc.id !== id)`. -/
def deleteCard (cards : List VisualCard) (cardId : String) : List VisualCard :=
  cards.filter (fun vc => vc.id ≠ cardId)

/-- The optimistic update at the start of `handleRegenerateVisual`
(src/App.tsx line 806): mark the card as loading, by id. -/
def handleRegenerateLoading (cards : List VisualCard) (cardId : String) :
    List VisualCard :=
  cards.map (fun vc =>
    if vc.id = cardId then { vc with status := .loading } else vc)

/-- The `.then` callback of `handleRegenerateVisual` (src/App.tsx lines
808-810): when the AI call resolves, update the card with that id to
`Loaded` with the new image URL. -/
def applyRegenerateResult (cards : List VisualCard) (cardId url : String) :
    List VisualCard :=
  cards.map (fun vc =>
    if vc.id = cardId then { vc with status := .loaded, imageUrl := some url }
    else vc)

/-- The `.catch` callback of `handleRegenerateVisual` (src/App.tsx lines
811-814): on rejection, mark the card with that id as `Error`. -/
def applyRegenerateError (cards : List VisualCard) (cardId : String) :
    List VisualCard :=
  cards.map (fun vc =>
    if vc.id = cardId then { vc with status := .error } else vc)

theorem regenerate_map_noop (l : List VisualCard) (cardId url : String)
    (h : ∀ c ∈ l, c.id ≠ cardId) :
    applyRegenerateResult l cardId url = l ∧ applyRegenerateError l cardId = l := by
  induction l with
  | nil => simp [applyRegenerateResult, applyRegenerateError]
  | cons c cs ih =>
      have hc : c.id ≠ cardId := h c (List.mem_cons_self c cs)
      have hcs := ih (fun d hd => h d (List.mem_cons_of_mem c hd))
      simp only [applyRegenerateResult, applyRegenerateError, List.map_cons,
        if_neg hc] at hcs ⊢
      exact ⟨by rw [hcs.1], by rw [hcs.2]⟩

theorem deleteCard_not_mem (cards : List VisualCard) (cardId : String) :
    ∀ c ∈ deleteCard cards cardId, c.id ≠ cardId := by
  intro c hc
  have := List.of_mem_filter hc
  simpa using this

/-- C8: deleting a card while its regeneration request is pending makes the
later resolution (and rejection) a no-op on the card model: after the
delete, no card with that id exists, and both the `.then` and `.catch`
updates leave the card list unchanged. -/
theorem C8_delete_pending_noop (cards : List VisualCard) (cardId url : String) :
    applyRegenerateResult (deleteCard cards cardId) cardId url
        = deleteCard cards cardId ∧
    applyRegenerateError (deleteCard cards cardId) cardId
        = deleteCard cards cardId ∧
    (deleteCard cards cardId).all (fun c => c.id ≠ cardId) = true := by
  have h := deleteCard_not_mem cards cardId
  have hm := regenerate_map_noop (deleteCard cards cardId) cardId url h
  refine ⟨hm.1, hm.2, ?_⟩
  rw [List.all_eq_true]
  intro c hc
  simpa using h c hc

/-- The whole-board state the wipe control touches: the Ink Layer raster
plus the chat's cards and drawing history. -/
structure BoardState where
  draw : ChatDrawState
  visualCards : List VisualCard
deriving DecidableEq, Repr

/-- The toolbar `onWipe` handler (src/App.tsx lines 1667-1671):
`clearRect` the whole Ink Layer canvas and set
`visualCards: [], drawingHistory: [], drawingHistoryIndex: -1`. -/
def onWipe (_s : BoardState) : BoardState :=
  { draw := { canvas := [], drawingHistory := [], drawingHistoryIndex := -1 },
    visualCards := [] }

/-- C10: wiping clears the Ink Layer raster, deletes every card, and resets
the history to `[]` with index `-1`, all in one step; afterwards neither
undo (which requires `historyIndex > 0`) nor the no-op redo can recover
anything. -/
theorem C10_wipe (s : BoardState) :
    (onWipe s).draw.canvas = [] ∧
    (onWipe s).visualCards = [] ∧
    (onWipe s).draw.drawingHistory = [] ∧
    (onWipe s).draw.drawingHistoryIndex = -1 ∧
    handleUndo (onWipe s).draw = (onWipe s).draw ∧
    onRedo (onWipe s).draw = (onWipe s).draw := by
  refine ⟨rfl, rfl, rfl, rfl, ?_, rfl⟩
  simp [onWipe, handleUndo]

/-!
## Tool state machine: `startDrawing` and the whiteboard `onMouseDown`
(src/App.tsx lines 1299-1327 and 1589-1597)
-/

/-- The active tool (src/App.tsx line 634 union type). -/
inductive Tool where
  | select
  | aiLasso
  | text
  | notepad
  | pen
  | highlighter
  | eraser
  | rectangle
  | ellipse
  | line
  | arrow
deriving DecidableEq, Repr

/-- The whitelist at the top of `startDrawing` (src/App.tsx line 1300):
`['pen','highlighter','eraser','rectangle','ellipse','line','arrow'].includes(activeTool)`. -/
def isStrokeOrShapeTool (t : Tool) : Bool :=
  match t with
  | .pen | .highlighter | .eraser | .rectangle | .ellipse | .line | .arrow => true
  | _ => false

/-- 2-D canvas compositing mode. The source never assigns
`globalCompositeOperation`, so the context keeps the canvas default
`source-over` for every tool. -/
inductive CompositeOp where
  | sourceOver
  | destinationOut
deriving DecidableEq, Repr

/-- The drawing-context attributes `startDrawing` configures
(src/App.tsx lines 1314-1322), plus the compositing mode it leaves alone. -/
structure CtxState where
  strokeStyle : String
  lineWidth : ℚ
  lineCap : String
  lineJoin : String
  globalAlpha : ℚ
  compositeOp : CompositeOp
deriving DecidableEq, Repr

/-- The interaction state `startDrawing` can touch: the drawing flag, the
lasso path, the Ink-Layer context configuration, the gesture start point,
and the card list (which `startDrawing` never modifies). -/
structure CanvasSession where
  isDrawing : Bool
  lassoPath : List Point
  ctx : CtxState
  drawStartCoords : Point
  visualCards : List VisualCard
deriving DecidableEq, Repr

/-- `startDrawing` (src/App.tsx lines 1299-1327): bail out unless the tool
is a stroke/shape tool or the AI lasso; otherwise set `isDrawing`, convert
the pointer position to scene coordinates, record it, and either seed the
lasso path (ai-lasso) or configure the Ink-Layer context: eraser strokes
use `strokeStyle = '#ffffff'`, width is `strokeWidth * 4` for the
highlighter and `strokeWidth` otherwise, round caps/joins, alpha 0.4 for
the highlighter and 1.0 otherwise. No tool creates a card here. -/
def startDrawing (tool : Tool) (drawColor : String) (strokeWidth : ℚ)
    (client : Point) (pz : PanZoom) (s : CanvasSession) : CanvasSession :=
  if isStrokeOrShapeTool tool = false ∧ tool ≠ Tool.aiLasso then s
  else
    let p := toScene pz client
    let s1 := { s with isDrawing := true, drawStartCoords := p }
    if tool = Tool.aiLasso then { s1 with lassoPath := [p] }
    else
      { s1 with ctx :=
        { s1.ctx with
          strokeStyle := if tool = Tool.eraser then "#ffffff" else drawColor,
          lineWidth := if tool = Tool.highlighter then strokeWidth * 4
                       else strokeWidth,
          lineCap := "round",
          lineJoin := "round",
          globalAlpha := if tool = Tool.highlighter then 2/5 else 1 } }

/-- Pan bookkeeping used by the `select` branch of `onMouseDown`. -/
structure PanGesture where
  isPanning : Bool
  startPanX : ℚ
  startPanY : ℚ
deriving DecidableEq, Repr

/-- The whiteboard container `onMouseDown` handler (src/App.tsx lines
1589-1597): with the select tool and the left button, begin panning;
with any other tool, delegate to `startDrawing`. -/
def onMouseDownWhiteboard (tool : Tool) (button : ℕ) (drawColor : String)
    (strokeWidth : ℚ) (client : Point) (pz : PanZoom)
    (s : CanvasSession × PanGesture) : CanvasSession × PanGesture :=
  if tool = Tool.select ∧ button = 0 then
    (s.1, ⟨true, client.x, client.y⟩)
  else
    (startDrawing tool drawColor strokeWidth client pz s.1, s.2)

/-- C6 (code bug evidence): with the text tool active, a mouse-down — hence
any single click, however small the pointer movement — does nothing at all:
`startDrawing` returns before touching any state because `text` is not in
its tool whitelist, and no other handler creates a card for the text tool.
In particular no borderless text card is created and the card list is
unchanged, contradicting the toolbar's own "Add Textbox" affordance
(src/App.tsx line 506). -/
theorem C6_text_click_noop (button : ℕ) (drawColor : String)
    (strokeWidth : ℚ) (client : Point) (pz : PanZoom)
    (s : CanvasSession × PanGesture) :
    onMouseDownWhiteboard Tool.text button drawColor strokeWidth client pz s = s ∧
    startDrawing Tool.text drawColor strokeWidth client pz s.1 = s.1 ∧
    (onMouseDownWhiteboard Tool.text button drawColor strokeWidth client pz
        s).1.visualCards = s.1.visualCards := by
  have hnoop : startDrawing Tool.text drawColor strokeWidth client pz s.1 = s.1 := by
    simp [startDrawing, isStrokeOrShapeTool]
  have hmd : onMouseDownWhiteboard Tool.text button drawColor strokeWidth client
      pz s = s := by
    simp [onMouseDownWhiteboard, hnoop]
  exact ⟨hmd, hnoop, by rw [hmd]⟩

/-- C7 counterexample: starting an eraser stroke with configured stroke
width 4 configures the context with opaque white paint (`#ffffff`), line
width 4 (not `2 × 4 = 8`), full alpha, and the untouched default
`source-over` compositing — not a pixel-removing "clear" mode. -/
theorem C7_counterexample :
    (startDrawing Tool.eraser "#123456" 4 ⟨0, 0⟩ ⟨1, 0, 0⟩
        ⟨false, [], ⟨"#123456", 1, "butt", "miter", 1, .sourceOver⟩, ⟨0, 0⟩, []⟩).ctx
      = ⟨"#ffffff", 4, "round", "round", 1, .sourceOver⟩ ∧
    (4 : ℚ) ≠ 2 * 4 ∧
    CompositeOp.sourceOver ≠ CompositeOp.destinationOut := by
  refine ⟨?_, by norm_num, by decide⟩
  simp [startDrawing, isStrokeOrShapeTool, toScene]

/-- C7 amended: every eraser stroke is painted with opaque white
(`#ffffff`) at exactly the configured stroke width (×1), alpha 1, round
caps and joins, with the compositing mode left as it was (the source never
sets `globalCompositeOperation`, so it stays the canvas default
`source-over`): pixels are painted over, not removed. -/
theorem C7_amended (drawColor : String) (strokeWidth : ℚ) (client : Point)
    (pz : PanZoom) (s : CanvasSession) :
    (startDrawing Tool.eraser drawColor strokeWidth client pz s).ctx
      = { s.ctx with strokeStyle := "#ffffff", lineWidth := strokeWidth,
                     lineCap := "round", lineJoin := "round",
                     globalAlpha := 1 } := by
  simp [startDrawing, isStrokeOrShapeTool]

end Canopy
